import Mathlib

/-!
Shallow embedding of `hw/ppc/spapr_caps.c` (QEMU pSeries capability
handling) together with proofs about its default computation, reset/apply
engine and migration guard.
-/

set_option linter.unusedVariables false

/-- Modelled from the spec: the capability ordinals and level constants are
declared in the repository header `hw/ppc/spapr.h`, which is not under the
sources given here.  Levels are totally ordered numerically with
OFF = 0 < ON = 1, the registry ordinals are HTM, VSX, DFP in that order, and
`SPAPR_CAP_NUM = 3`. -/
abbrev SPAPR_CAP_NUM : Nat := 3

def SPAPR_CAP_HTM : Fin SPAPR_CAP_NUM := ⟨0, by decide⟩

def SPAPR_CAP_VSX : Fin SPAPR_CAP_NUM := ⟨1, by decide⟩

def SPAPR_CAP_DFP : Fin SPAPR_CAP_NUM := ⟨2, by decide⟩

def SPAPR_CAP_OFF : Nat := 0

def SPAPR_CAP_ON : Nat := 1

/-- Modelled from the spec: the logical PVR constants come from
`target/ppc/cpu-models.h`, which is not under the sources given here.  Only
their numeric identity and order matter (2.06 is older than 2.07). -/
def CPU_POWERPC_LOGICAL_2_06 : Nat := 0x0F000003

def CPU_POWERPC_LOGICAL_2_07 : Nat := 0x0F000004

/-- `sPAPRCapabilities`: a fixed-size array `uint8_t caps[SPAPR_CAP_NUM]`,
embedded as a function from capability ordinal to level. -/
structure sPAPRCapabilities where
  caps : Fin SPAPR_CAP_NUM → Nat
deriving DecidableEq

/-- Array store `c.caps[i] = v`. -/
def setCap (c : sPAPRCapabilities) (i : Fin SPAPR_CAP_NUM) (v : Nat) :
    sPAPRCapabilities :=
  ⟨fun j => if j = i then v else c.caps j⟩

/-- The capability-relevant fields of `sPAPRMachineState`: the stored default
set `def` (called `defCaps` here since `def` is a Lean keyword), the effective
set `eff`, the transient migration set `mig`, and the per-capability
command-line override flags `cmd_line_caps`. -/
structure sPAPRMachineState where
  defCaps : sPAPRCapabilities
  eff : sPAPRCapabilities
  mig : sPAPRCapabilities
  cmd_line_caps : Fin SPAPR_CAP_NUM → Bool
deriving DecidableEq

/-- Modelled from the spec: the external collaborators the C code consults,
none of which are under the given sources — the machine class baseline
`smc->default_caps`, the CPU compatibility level resulting from `first_cpu`
and `spapr->max_compat_pvr`, and the backend feature queries used by the
apply callbacks (`tcg_enabled`, `kvm_enabled`, `kvmppc_has_cap_htm`, the CPU
instruction flags `PPC_ALTIVEC`, `PPC2_VSX`, `PPC2_DFP`). -/
structure Env where
  smc_default_caps : sPAPRCapabilities
  compat_pvr : Nat
  tcg_enabled : Bool
  kvm_enabled : Bool
  kvmppc_has_cap_htm : Bool
  ppc_altivec : Bool
  ppc2_vsx : Bool
  ppc2_dfp : Bool
deriving DecidableEq

/-- Modelled from the spec: `ppc_check_compat(cpu, pvr, 0, max_compat_pvr)`
(defined in `target/ppc`, not under the given sources) is the external CPU
compatibility query; per the spec it succeeds exactly when the CPU's
compatibility level reaches the queried logical PVR threshold. -/
def ppc_check_compat (compat_pvr threshold_pvr : Nat) : Bool :=
  threshold_pvr ≤ compat_pvr

/-- `default_caps_with_cpu`: start from the machine class baseline; if the CPU
cannot run in 2.07 compatibility force HTM off; if it cannot run in 2.06
compatibility force VSX and DFP off. -/
def default_caps_with_cpu (env : Env) : sPAPRCapabilities :=
  let caps := env.smc_default_caps
  let caps :=
    if ppc_check_compat env.compat_pvr CPU_POWERPC_LOGICAL_2_07 then caps
    else setCap caps SPAPR_CAP_HTM SPAPR_CAP_OFF
  let caps :=
    if ppc_check_compat env.compat_pvr CPU_POWERPC_LOGICAL_2_06 then caps
    else setCap (setCap caps SPAPR_CAP_VSX SPAPR_CAP_OFF) SPAPR_CAP_DFP SPAPR_CAP_OFF
  caps

/-- `spapr_caps_pre_load`: set the migration set to the stored defaults and
return 0. -/
def spapr_caps_pre_load (spapr : sPAPRMachineState) : Int × sPAPRMachineState :=
  (0, { spapr with mig := spapr.defCaps })

/-- `spapr_caps_pre_save`: set the migration set to the effective set and
return 0. -/
def spapr_caps_pre_save (spapr : sPAPRMachineState) : Int × sPAPRMachineState :=
  (0, { spapr with mig := spapr.eff })

/-- `spapr_cap_set_bool`: the `visit_type_bool` decode outcome is the
`visited` argument (`none` = decode error).  On error the error is propagated
and nothing else happens; on success the override flag is set and the
effective level written. -/
def spapr_cap_set_bool (cap_index : Fin SPAPR_CAP_NUM) (visited : Option Bool)
    (spapr : sPAPRMachineState) : Option String × sPAPRMachineState :=
  match visited with
  | none => (some "visit_type_bool failed", spapr)
  | some value =>
    (none,
     { spapr with
       cmd_line_caps := fun j => if j = cap_index then true else spapr.cmd_line_caps j,
       eff := setCap spapr.eff cap_index
                (if value then SPAPR_CAP_ON else SPAPR_CAP_OFF) })

/-- `cap_htm_apply`: `some msg` models `error_setg`. -/
def cap_htm_apply (env : Env) (val : Nat) : Option String :=
  if val = 0 then none
  else if env.tcg_enabled then
    some "No Transactional Memory support in TCG, try cap-htm=off"
  else if env.kvm_enabled && !env.kvmppc_has_cap_htm then
    some "KVM implementation does not support Transactional Memory, try cap-htm=off"
  else none

/-- `cap_vsx_apply`; the C `g_assert(env->insns_flags & PPC_ALTIVEC)` abort is
embedded as an error outcome. -/
def cap_vsx_apply (env : Env) (val : Nat) : Option String :=
  if val = 0 then none
  else if !env.ppc_altivec then
    some "assertion failed: env->insns_flags & PPC_ALTIVEC"
  else if !env.ppc2_vsx then
    some "VSX support not available, try cap-vsx=off"
  else none

/-- `cap_dfp_apply`. -/
def cap_dfp_apply (env : Env) (val : Nat) : Option String :=
  if val = 0 then none
  else if !env.ppc2_dfp then
    some "DFP support not available, try cap-dfp=off"
  else none

/-- One entry of `capability_table` (property get/set glue omitted: the setter
is embedded once as `spapr_cap_set_bool`, shared by all three entries in the
C code as well). -/
structure sPAPRCapabilityInfo where
  name : String
  description : String
  index : Nat
  apply : Env → Nat → Option String

/-- `capability_table[SPAPR_CAP_NUM]`. -/
def capability_table (i : Fin SPAPR_CAP_NUM) : sPAPRCapabilityInfo :=
  match i with
  | ⟨0, _⟩ =>
    { name := "htm"
      description := "Allow Hardware Transactional Memory (HTM)"
      index := 0
      apply := cap_htm_apply }
  | ⟨1, _⟩ =>
    { name := "vsx"
      description := "Allow Vector Scalar Extensions (VSX)"
      index := 1
      apply := cap_vsx_apply }
  | ⟨2, _⟩ =>
    { name := "dfp"
      description := "Allow Decimal Floating Point (DFP)"
      index := 2
      apply := cap_dfp_apply }

/-- The needed-predicate generated by `SPAPR_CAP_MIG_STATE(cap, ccap)`:
transmitted iff set on the command line and different from the default. -/
def spapr_cap_needed (ccap : Fin SPAPR_CAP_NUM) (spapr : sPAPRMachineState) :
    Bool :=
  spapr.cmd_line_caps ccap && !(spapr.eff.caps ccap == spapr.defCaps.caps ccap)

/-- `spapr_cap_htm_needed` from `SPAPR_CAP_MIG_STATE(htm, HTM)`. -/
def spapr_cap_htm_needed (spapr : sPAPRMachineState) : Bool :=
  spapr_cap_needed SPAPR_CAP_HTM spapr

/-- `spapr_cap_vsx_needed` from `SPAPR_CAP_MIG_STATE(vsx, VSX)`. -/
def spapr_cap_vsx_needed (spapr : sPAPRMachineState) : Bool :=
  spapr_cap_needed SPAPR_CAP_VSX spapr

/-- `spapr_cap_dfp_needed` from `SPAPR_CAP_MIG_STATE(dfp, DFP)`. -/
def spapr_cap_dfp_needed (spapr : sPAPRMachineState) : Bool :=
  spapr_cap_needed SPAPR_CAP_DFP spapr

/-- One `error_report`/`warn_report` emission of `spapr_caps_post_migration`:
the capability name and the two levels interpolated into the format string. -/
structure CapReport where
  name : String
  srcLevel : Nat
  dstLevel : Nat
deriving DecidableEq

/-- The outcome of `spapr_caps_post_migration`: the returned int plus the
reports emitted through `error_report` and `warn_report`. -/
structure PostMigOutcome where
  ret : Int
  errors : List CapReport
  warnings : List CapReport
deriving DecidableEq

/-- The first loop of `spapr_caps_post_migration`: start from the
destination's freshly computed defaults and overlay every migration value
that differs from the stored defaults. -/
def reconstructSrccaps (env : Env) (spapr : sPAPRMachineState) :
    sPAPRCapabilities :=
  (List.finRange SPAPR_CAP_NUM).foldl
    (fun srccaps i =>
      if spapr.mig.caps i != spapr.defCaps.caps i then
        setCap srccaps i (spapr.mig.caps i)
      else srccaps)
    (default_caps_with_cpu env)

/-- One iteration of the second loop of `spapr_caps_post_migration`:
`src > dst` clears `ok` and emits an error report, `src < dst` emits a
warning report. -/
def postMigStep (srccaps dstcaps : sPAPRCapabilities)
    (acc : Bool × List CapReport × List CapReport) (i : Fin SPAPR_CAP_NUM) :
    Bool × List CapReport × List CapReport :=
  let info := capability_table i
  let acc :=
    if srccaps.caps i > dstcaps.caps i then
      (false, acc.2.1 ++ [⟨info.name, srccaps.caps i, dstcaps.caps i⟩], acc.2.2)
    else acc
  if srccaps.caps i < dstcaps.caps i then
    (acc.1, acc.2.1, acc.2.2 ++ [⟨info.name, srccaps.caps i, dstcaps.caps i⟩])
  else acc

/-- `spapr_caps_post_migration`; `-22` is `-EINVAL`. -/
def spapr_caps_post_migration (env : Env) (spapr : sPAPRMachineState) :
    PostMigOutcome :=
  let dstcaps := spapr.eff
  let srccaps := reconstructSrccaps env spapr
  let res := (List.finRange SPAPR_CAP_NUM).foldl (postMigStep srccaps dstcaps)
    (true, [], [])
  { ret := if res.1 then 0 else -22
    errors := res.2.1
    warnings := res.2.2 }

/-- The first loop of `spapr_caps_reset`: store the freshly computed defaults
and, for every capability not set on the command line, copy the default into
the effective set. -/
def resetState (env : Env) (spapr : sPAPRMachineState) : sPAPRMachineState :=
  let default_caps := default_caps_with_cpu env
  { spapr with
    defCaps := default_caps
    eff := ⟨fun i =>
      if spapr.cmd_line_caps i then spapr.eff.caps i else default_caps.caps i⟩ }

/-- The second loop of `spapr_caps_reset`: call each capability's apply
callback with its effective level, recording the trace of calls; an apply
error is `error_fatal`, aborting the loop (and the process) at that point. -/
def resetApplyLoop (env : Env) (spapr : sPAPRMachineState) :
    List (Fin SPAPR_CAP_NUM) → List (Fin SPAPR_CAP_NUM × Nat) × Option String
  | [] => ([], none)
  | i :: rest =>
    let val := spapr.eff.caps i
    match (capability_table i).apply env val with
    | some e => ([(i, val)], some e)
    | none =>
      let r := resetApplyLoop env spapr rest
      ((i, val) :: r.1, r.2)

/-- `spapr_caps_reset`: the updated machine state, the trace of apply calls
(ordinal and level, in call order) and the fatal error, if any. -/
def spapr_caps_reset (env : Env) (spapr : sPAPRMachineState) :
    sPAPRMachineState × List (Fin SPAPR_CAP_NUM × Nat) × Option String :=
  let spapr := resetState env spapr
  (spapr, resetApplyLoop env spapr (List.finRange SPAPR_CAP_NUM))

/-- The state invariant: a capability not overridden on the command line has
its effective level equal to its stored default level. -/
def capsInvariant (spapr : sPAPRMachineState) : Prop :=
  ∀ i, spapr.cmd_line_caps i = false → spapr.eff.caps i = spapr.defCaps.caps i

/-- The per-capability compatibility threshold of `default_caps_with_cpu`:
2.07 for HTM, 2.06 for VSX and DFP. -/
def capThreshold (i : Fin SPAPR_CAP_NUM) : Nat :=
  if i = SPAPR_CAP_HTM then CPU_POWERPC_LOGICAL_2_07 else CPU_POWERPC_LOGICAL_2_06

/-- A concrete environment for evaluating the operations: all baseline
capabilities OFF, TCG backend, CPU without the optional instruction sets. -/
def witEnv : Env :=
  { smc_default_caps := ⟨fun _ => SPAPR_CAP_OFF⟩
    compat_pvr := 0
    tcg_enabled := true
    kvm_enabled := false
    kvmppc_has_cap_htm := false
    ppc_altivec := true
    ppc2_vsx := true
    ppc2_dfp := true }

/-- A concrete machine state: everything OFF, no command-line overrides. -/
def witMachine : sPAPRMachineState :=
  { defCaps := ⟨fun _ => SPAPR_CAP_OFF⟩
    eff := ⟨fun _ => SPAPR_CAP_OFF⟩
    mig := ⟨fun _ => SPAPR_CAP_OFF⟩
    cmd_line_caps := fun _ => false }

/-- C3: for every baseline set and CPU compatibility level,
`default_caps_with_cpu` yields OFF for each capability whose threshold
exceeds the compatibility level and the baseline value otherwise, so it never
exceeds the baseline. -/
theorem default_caps_with_cpu_spec (env : Env) (i : Fin SPAPR_CAP_NUM) :
    ((default_caps_with_cpu env).caps i =
      if env.compat_pvr < capThreshold i then SPAPR_CAP_OFF
      else env.smc_default_caps.caps i)
    ∧ (default_caps_with_cpu env).caps i ≤ env.smc_default_caps.caps i := by
  have h : (default_caps_with_cpu env).caps i =
      if env.compat_pvr < capThreshold i then SPAPR_CAP_OFF
      else env.smc_default_caps.caps i := by
    obtain ⟨iv, hi⟩ := i
    interval_cases iv <;>
      simp only [default_caps_with_cpu, ppc_check_compat, setCap, capThreshold,
        SPAPR_CAP_HTM, SPAPR_CAP_VSX, SPAPR_CAP_DFP, SPAPR_CAP_OFF,
        CPU_POWERPC_LOGICAL_2_06, CPU_POWERPC_LOGICAL_2_07,
        decide_eq_true_eq, Fin.mk.injEq] <;>
      split_ifs <;> simp_all [Fin.ext_iff] <;> omega
  refine ⟨h, ?_⟩
  rw [h]
  split
  · simp [SPAPR_CAP_OFF]
  · exact le_refl _

/-- C4: the needed-predicate holds iff the capability's override flag is set
and its effective level differs from its default level. -/
theorem spapr_cap_needed_spec (ccap : Fin SPAPR_CAP_NUM)
    (spapr : sPAPRMachineState) :
    spapr_cap_needed ccap spapr = true ↔
      spapr.cmd_line_caps ccap = true ∧
        spapr.eff.caps ccap ≠ spapr.defCaps.caps ccap := by
  simp [spapr_cap_needed]

/-- C8: `spapr_caps_pre_save` sets the migration set to the effective set,
`spapr_caps_pre_load` sets it to the stored default set, both leave the
default set, effective set and override flags unchanged, and both return 0. -/
theorem pre_save_pre_load_spec (spapr : sPAPRMachineState) :
    (spapr_caps_pre_save spapr).1 = 0 ∧
    (spapr_caps_pre_save spapr).2.mig = spapr.eff ∧
    (spapr_caps_pre_save spapr).2.defCaps = spapr.defCaps ∧
    (spapr_caps_pre_save spapr).2.eff = spapr.eff ∧
    (spapr_caps_pre_save spapr).2.cmd_line_caps = spapr.cmd_line_caps ∧
    (spapr_caps_pre_load spapr).1 = 0 ∧
    (spapr_caps_pre_load spapr).2.mig = spapr.defCaps ∧
    (spapr_caps_pre_load spapr).2.defCaps = spapr.defCaps ∧
    (spapr_caps_pre_load spapr).2.eff = spapr.eff ∧
    (spapr_caps_pre_load spapr).2.cmd_line_caps = spapr.cmd_line_caps :=
  ⟨rfl, rfl, rfl, rfl, rfl, rfl, rfl, rfl, rfl, rfl⟩

/-- C9: every registered apply callback succeeds when the requested level is
OFF (0), regardless of the backend environment. -/
theorem apply_off_always_succeeds (env : Env) (i : Fin SPAPR_CAP_NUM) :
    (capability_table i).apply env SPAPR_CAP_OFF = none ∧
    cap_htm_apply env 0 = none ∧ cap_vsx_apply env 0 = none ∧
    cap_dfp_apply env 0 = none := by
  refine ⟨?_, rfl, rfl, rfl⟩
  fin_cases i <;> rfl

/-- C10: when the boolean decode fails, `spapr_cap_set_bool` propagates the
decode error and leaves the machine state entirely unchanged. -/
theorem spapr_cap_set_bool_error_atomic (cap_index : Fin SPAPR_CAP_NUM)
    (spapr : sPAPRMachineState) :
    (spapr_cap_set_bool cap_index none spapr).2 = spapr ∧
    (spapr_cap_set_bool cap_index none spapr).1 =
      some "visit_type_bool failed" :=
  ⟨rfl, rfl⟩

/-- Pointwise view of the overlay fold in `spapr_caps_post_migration`'s first
loop: an index in the list whose migration value differs from its stored
default takes the migration value, every other index keeps the base value. -/
theorem overlay_foldl_caps (spapr : sPAPRMachineState)
    (l : List (Fin SPAPR_CAP_NUM)) (base : sPAPRCapabilities)
    (i : Fin SPAPR_CAP_NUM) :
    (l.foldl
      (fun srccaps j =>
        if spapr.mig.caps j != spapr.defCaps.caps j then
          setCap srccaps j (spapr.mig.caps j)
        else srccaps)
      base).caps i =
    if i ∈ l ∧ spapr.mig.caps i ≠ spapr.defCaps.caps i then spapr.mig.caps i
    else base.caps i := by
  induction l generalizing base with
  | nil => simp
  | cons a l ih =>
    rw [List.foldl_cons, ih]
    simp only [List.mem_cons, bne_iff_ne, ne_eq]
    by_cases h1 : i = a
    · subst h1
      by_cases h2 : spapr.mig.caps i = spapr.defCaps.caps i <;>
        simp_all [setCap]
    · by_cases h2 : spapr.mig.caps a = spapr.defCaps.caps a <;>
        by_cases h3 : i ∈ l ∧ spapr.mig.caps i ≠ spapr.defCaps.caps i <;>
        simp_all [setCap]

/-- C2: the reconstructed source level is the migration value where it differs
from the stored default (the field was received) and the destination's freshly
computed default otherwise. -/
theorem reconstructSrccaps_spec (env : Env) (spapr : sPAPRMachineState)
    (i : Fin SPAPR_CAP_NUM) :
    (reconstructSrccaps env spapr).caps i =
      if spapr.mig.caps i ≠ spapr.defCaps.caps i then spapr.mig.caps i
      else (default_caps_with_cpu env).caps i := by
  rw [reconstructSrccaps, overlay_foldl_caps]
  simp [List.mem_finRange]

/-- Characterization of the comparison fold of `spapr_caps_post_migration`:
the `ok` flag survives exactly when no listed capability has a source level
above the destination level, the error reports are exactly the fatal cases
and the warning reports exactly the downgrade cases, each naming the
capability and both levels, in list order. -/
theorem postMig_foldl_spec (srccaps dstcaps : sPAPRCapabilities)
    (l : List (Fin SPAPR_CAP_NUM)) (ok : Bool) (e w : List CapReport) :
    l.foldl (postMigStep srccaps dstcaps) (ok, e, w) =
      (ok && l.all (fun i => !(dstcaps.caps i < srccaps.caps i)),
       e ++ (l.filter (fun i => decide (dstcaps.caps i < srccaps.caps i))).map
         (fun i => ⟨(capability_table i).name, srccaps.caps i, dstcaps.caps i⟩),
       w ++ (l.filter (fun i => decide (srccaps.caps i < dstcaps.caps i))).map
         (fun i => ⟨(capability_table i).name, srccaps.caps i, dstcaps.caps i⟩)) := by
  induction l generalizing ok e w with
  | nil => simp
  | cons a l ih =>
    rw [List.foldl_cons, ih]
    rcases lt_trichotomy (srccaps.caps a) (dstcaps.caps a) with h | h | h
    · simp [postMigStep, h, not_lt_of_gt h, List.filter_cons]
    · simp [postMigStep, h, lt_irrefl, List.filter_cons]
    · simp [postMigStep, h, not_lt_of_gt h, List.filter_cons]

/-- C1: `spapr_caps_post_migration` succeeds (returns 0) iff no capability's
reconstructed source level exceeds the destination's effective level; its only
other return value is `-EINVAL`; the errors reported are exactly the fatal
cases and the warnings exactly the strict-downgrade cases, each identifying
the capability name and both numeric levels — so warnings never affect the
returned result. -/
theorem spapr_caps_post_migration_spec (env : Env) (spapr : sPAPRMachineState) :
    ((spapr_caps_post_migration env spapr).ret = 0 ↔
      ∀ i, (reconstructSrccaps env spapr).caps i ≤ spapr.eff.caps i)
    ∧ ((spapr_caps_post_migration env spapr).ret = 0 ∨
       (spapr_caps_post_migration env spapr).ret = -22)
    ∧ (spapr_caps_post_migration env spapr).errors =
        ((List.finRange SPAPR_CAP_NUM).filter
          (fun i => decide (spapr.eff.caps i <
            (reconstructSrccaps env spapr).caps i))).map
          (fun i => ⟨(capability_table i).name,
            (reconstructSrccaps env spapr).caps i, spapr.eff.caps i⟩)
    ∧ (spapr_caps_post_migration env spapr).warnings =
        ((List.finRange SPAPR_CAP_NUM).filter
          (fun i => decide ((reconstructSrccaps env spapr).caps i <
            spapr.eff.caps i))).map
          (fun i => ⟨(capability_table i).name,
            (reconstructSrccaps env spapr).caps i, spapr.eff.caps i⟩) := by
  have h := postMig_foldl_spec (reconstructSrccaps env spapr) spapr.eff
    (List.finRange SPAPR_CAP_NUM) true ([]) ([])
  refine ⟨?_, ?_, ?_, ?_⟩
  · simp only [spapr_caps_post_migration, h]
    by_cases hall :
        (List.finRange SPAPR_CAP_NUM).all
          (fun i => !(spapr.eff.caps i < (reconstructSrccaps env spapr).caps i)) <;>
      simp_all [List.all_eq_true, List.mem_finRange, not_lt]
  · simp only [spapr_caps_post_migration, h]
    split <;> simp
  · simp [spapr_caps_post_migration, h]
  · simp [spapr_caps_post_migration, h]

/-- If the apply loop of `spapr_caps_reset` completes without a fatal error,
its call trace is exactly one apply call per listed capability, in list
order, with that capability's effective level. -/
theorem resetApplyLoop_trace (env : Env) (s : sPAPRMachineState)
    (l : List (Fin SPAPR_CAP_NUM))
    (h : (resetApplyLoop env s l).2 = none) :
    (resetApplyLoop env s l).1 = l.map (fun i => (i, s.eff.caps i)) := by
  induction l with
  | nil => simp [resetApplyLoop]
  | cons a l ih =>
    simp only [resetApplyLoop] at h ⊢
    cases hc : (capability_table a).apply env (s.eff.caps a) with
    | some e => rw [hc] at h; simp at h
    | none =>
      rw [hc] at h
      have h2 : (resetApplyLoop env s l).2 = none := h
      show (a, s.eff.caps a) :: (resetApplyLoop env s l).1 = _
      simp [ih h2]

/-- C5: after `spapr_caps_reset`, the stored default set equals the freshly
computed defaults, the effective level of every non-overridden capability
equals its default (overridden capabilities keep their levels), and — when no
apply call is fatal — each capability's apply callback is invoked exactly
once, in registry order, with that capability's effective level. -/
theorem spapr_caps_reset_spec (env : Env) (spapr : sPAPRMachineState)
    (h : (spapr_caps_reset env spapr).2.2 = none) :
    (∀ i, (spapr_caps_reset env spapr).1.defCaps.caps i =
        (default_caps_with_cpu env).caps i)
    ∧ (∀ i, spapr.cmd_line_caps i = false →
        (spapr_caps_reset env spapr).1.eff.caps i =
          (spapr_caps_reset env spapr).1.defCaps.caps i)
    ∧ (∀ i, spapr.cmd_line_caps i = true →
        (spapr_caps_reset env spapr).1.eff.caps i = spapr.eff.caps i)
    ∧ (∀ i, (spapr_caps_reset env spapr).1.cmd_line_caps i =
        spapr.cmd_line_caps i)
    ∧ (spapr_caps_reset env spapr).2.1 =
        (List.finRange SPAPR_CAP_NUM).map
          (fun i => (i, (spapr_caps_reset env spapr).1.eff.caps i)) := by
  refine ⟨?_, ?_, ?_, ?_, ?_⟩
  · intro i; simp [spapr_caps_reset, resetState]
  · intro i hi; simp [spapr_caps_reset, resetState, hi]
  · intro i hi; simp [spapr_caps_reset, resetState, hi]
  · intro i; simp [spapr_caps_reset, resetState]
  · exact resetApplyLoop_trace env (resetState env spapr) _ h

/-- The state part of `spapr_caps_reset` is idempotent. -/
theorem resetState_idem (env : Env) (spapr : sPAPRMachineState) :
    resetState env (resetState env spapr) = resetState env spapr := by
  simp only [resetState]
  congr 1
  congr 1
  funext i
  by_cases hi : spapr.cmd_line_caps i <;> simp [hi]

/-- C6: `spapr_caps_reset` is idempotent — with the same environment
(unchanged CPU compatibility inputs and baseline; the override flags are
untouched by reset itself), a second reset produces the identical machine
state, the identical apply-call trace and the identical error outcome. -/
theorem spapr_caps_reset_idem (env : Env) (spapr : sPAPRMachineState) :
    spapr_caps_reset env (spapr_caps_reset env spapr).1 =
      spapr_caps_reset env spapr := by
  show (resetState env (resetState env spapr),
    resetApplyLoop env (resetState env (resetState env spapr))
      (List.finRange SPAPR_CAP_NUM)) = _
  rw [resetState_idem]
  rfl

/-- C7: the invariant "a non-overridden capability's effective level equals
its default level" is established by `spapr_caps_reset` from any pre-state,
invariant-violating or not, and preserved by the property setter (which sets the override flag whenever it writes a level, and
writes nothing on a decode error), by `spapr_caps_pre_save` and by
`spapr_caps_pre_load` (which only write the migration set);
`spapr_caps_post_migration` computes a result without writing the machine
state at all, so it preserves every state property. -/
theorem capsInvariant_spec (env : Env) (spapr : sPAPRMachineState)
    (cap_index : Fin SPAPR_CAP_NUM) (visited : Option Bool) :
    capsInvariant (spapr_caps_reset env spapr).1
    ∧ (capsInvariant spapr →
        capsInvariant (spapr_cap_set_bool cap_index visited spapr).2
        ∧ capsInvariant (spapr_caps_pre_save spapr).2
        ∧ capsInvariant (spapr_caps_pre_load spapr).2) := by
  refine ⟨?_, fun h => ⟨?_, h, h⟩⟩
  · intro i hi
    have hi2 : spapr.cmd_line_caps i = false := hi
    simp [spapr_caps_reset, resetState, hi2]
  · cases visited with
    | none => exact h
    | some value =>
      intro i hi
      simp only [spapr_cap_set_bool] at hi ⊢
      by_cases hic : i = cap_index
      · subst hic; simp at hi
      · simp only [setCap] at hi ⊢
        simp [hic] at hi ⊢
        exact h i hi

/-- Witness for the reset specification at a concrete environment and
machine state on which no apply call is fatal. -/
theorem spapr_caps_reset_spec_witness :
    (spapr_caps_reset witEnv witMachine).2.2 = none ∧
    ((∀ i, (spapr_caps_reset witEnv witMachine).1.defCaps.caps i =
        (default_caps_with_cpu witEnv).caps i)
    ∧ (∀ i, witMachine.cmd_line_caps i = false →
        (spapr_caps_reset witEnv witMachine).1.eff.caps i =
          (spapr_caps_reset witEnv witMachine).1.defCaps.caps i)
    ∧ (∀ i, witMachine.cmd_line_caps i = true →
        (spapr_caps_reset witEnv witMachine).1.eff.caps i =
          witMachine.eff.caps i)
    ∧ (∀ i, (spapr_caps_reset witEnv witMachine).1.cmd_line_caps i =
        witMachine.cmd_line_caps i)
    ∧ (spapr_caps_reset witEnv witMachine).2.1 =
        (List.finRange SPAPR_CAP_NUM).map
          (fun i => (i, (spapr_caps_reset witEnv witMachine).1.eff.caps i))) :=
  ⟨by decide, spapr_caps_reset_spec witEnv witMachine (by decide)⟩

/-- Witness for the invariant preservation theorem at a concrete machine
state satisfying the invariant. -/
theorem capsInvariant_spec_witness :
    capsInvariant witMachine ∧
    capsInvariant (spapr_caps_reset witEnv witMachine).1 ∧
    (capsInvariant (spapr_cap_set_bool SPAPR_CAP_HTM (some true) witMachine).2
    ∧ capsInvariant (spapr_caps_pre_save witMachine).2
    ∧ capsInvariant (spapr_caps_pre_load witMachine).2) :=
  ⟨fun i _ => rfl,
   (capsInvariant_spec witEnv witMachine SPAPR_CAP_HTM (some true)).1,
   (capsInvariant_spec witEnv witMachine SPAPR_CAP_HTM (some true)).2
     (fun i _ => rfl)⟩
